import Mathlib

/-!
# Virtualized I2C bus multiplexer: shallow embedding and verification

This file embeds the I2C virtualization layer of the repository:

* the component-construction wrappers `I2CMuxComponent` and `I2CComponent`
  (from `boards/components/src/i2c.rs`), translated directly from the source;
* the mux runtime engine (`capsules::virtual_i2c`: `MuxI2C` / `I2CDevice`),
  whose source is not part of the provided excerpt.  Its behaviour is
  modelled from the specification (sections 3, 4.1, 4.2 of the spec): every
  definition in the `VirtualI2C` part below carries a doc comment starting
  with "Modelled from the spec".

The runtime model is an explicit state machine: a system state records the
endpoint registry, the mux's in-flight slot and pending queue, the physical
master's busy request, a log of every operation the physical master receives
and every completion it fires, and a log of the demultiplexed completion
deliveries to endpoints.
-/

/-- Modelled from the spec: the three operation kinds a virtual endpoint
offers (`write`, `read`, `write_then_read`), each carrying its byte
count(s) (section 4.1). -/
inductive OpKind
  | write (len : Nat)
  | read (len : Nat)
  | writeRead (wlen rlen : Nat)
deriving Repr, DecidableEq

/-- Modelled from the spec: a buffer is exchanged by ownership; for the spec's
length precondition only its capacity matters (section 4.1). -/
structure Buffer where
  capacity : Nat
deriving Repr, DecidableEq

/-- Modelled from the spec: a virtual endpoint record — a 7-bit-intended bus
address, an optional registered completion client, and whether a request
from this endpoint is currently outstanding (section 3, "Virtual Endpoint"). -/
structure Endpoint where
  address : Nat
  client : Option Nat
  outstanding : Bool
deriving Repr, DecidableEq

/-- Modelled from the spec: the request descriptor carried while a transaction
is pending or in flight — originating endpoint, operation kind and the buffer
(section 3, "Request Descriptor").  Endpoints are identified by their index in
the mux's registry. -/
structure Request where
  ep : Nat
  kind : OpKind
  buf : Buffer
deriving Repr, DecidableEq

/-- Modelled from the spec: hardware completion status (`Ok`, `BusError`, or a
NACK-class error; section 6). -/
inductive Status
  | ok
  | busError
  | nack
deriving Repr, DecidableEq

/-- An event at the physical-master boundary: the master receives an
operation, or fires its completion callback. -/
inductive HwEvent
  | issued (r : Request)
  | completed (st : Status)
deriving Repr, DecidableEq

/-- Modelled from the spec: the synchronous error taxonomy of a virtual
endpoint operation (section 7). -/
inductive ErrCode
  | busy
  | invalidLength
deriving Repr, DecidableEq

/-- Result of a virtual endpoint operation call: started asynchronously, or a
synchronous error that hands the buffer back to the caller, or a fatal
programming error (unregistered endpoint; section 4.2, failure semantics). -/
inductive OpResult
  | started
  | err (code : ErrCode) (buf : Buffer)
  | fatal
deriving Repr, DecidableEq

/-- The whole-system state of the runtime model: endpoint registry, mux
in-flight slot, mux pending queue, the request currently at the physical
master (if any), the log of events at the physical-master boundary, and the
log of demultiplexed completion deliveries `(endpoint, status)`. -/
structure SysState where
  endpoints : Nat → Option Endpoint
  slot : Option Nat
  queue : List Request
  hwBusy : Option Request
  hwLog : List HwEvent
  deliveries : List (Nat × Status)

/-- Modelled from the spec: the length precondition — the requested byte
count(s) must not exceed the buffer's capacity (section 4.1). -/
def opLenOk : OpKind → Nat → Bool
  | OpKind.write l, cap => decide (l ≤ cap)
  | OpKind.read l, cap => decide (l ≤ cap)
  | OpKind.writeRead w r, cap => decide (w + r ≤ cap)

/-- Update the `outstanding` flag of one endpoint in the registry. -/
def setOutstanding (f : Nat → Option Endpoint) (e : Nat) (b : Bool) :
    Nat → Option Endpoint :=
  fun n => if n = e then (f n).map (fun ep => { ep with outstanding := b }) else f n

/-- Modelled from the spec: the immediate-dispatch path shared by `enqueue`
(bus idle) and the pop-and-dispatch step of the completion handler: issue the
operation on the physical master and record the slot as occupied by the
originating endpoint (section 4.2). -/
def dispatch (s : SysState) (r : Request) : SysState :=
  { s with slot := some r.ep, hwBusy := some r,
           hwLog := s.hwLog ++ [HwEvent.issued r] }

/-- Modelled from the spec: `MuxI2C`'s `enqueue` — if the physical master is
idle (slot unoccupied) dispatch immediately, otherwise append to the pending
queue in arrival order (section 4.2). -/
def enqueue (s : SysState) (r : Request) : SysState :=
  match s.slot with
  | none => dispatch s r
  | some _ => { s with queue := s.queue ++ [r] }

/-- Modelled from the spec: a virtual endpoint operation (section 4.1).
The length precondition is checked first (`InvalidLength`, buffer returned
synchronously, nothing started); then the one-outstanding-request-per-endpoint
rule (`Busy`, buffer returned synchronously); an accepted request marks the
endpoint outstanding and is handed to the mux's `enqueue`. -/
def I2CDevice.op (s : SysState) (e : Nat) (k : OpKind) (buf : Buffer) :
    OpResult × SysState :=
  match s.endpoints e with
  | none => (OpResult.fatal, s)
  | some ep =>
    if opLenOk k buf.capacity = false then
      (OpResult.err ErrCode.invalidLength buf, s)
    else if ep.outstanding then
      (OpResult.err ErrCode.busy buf, s)
    else
      (OpResult.started,
        enqueue { s with endpoints := setOutstanding s.endpoints e true }
          { ep := e, kind := k, buf := buf })

/-- Modelled from the spec: `write(buffer, len)` on a virtual endpoint. -/
def I2CDevice.write (s : SysState) (e : Nat) (buf : Buffer) (len : Nat) :
    OpResult × SysState :=
  I2CDevice.op s e (OpKind.write len) buf

/-- Modelled from the spec: `read(buffer, len)` on a virtual endpoint. -/
def I2CDevice.read (s : SysState) (e : Nat) (buf : Buffer) (len : Nat) :
    OpResult × SysState :=
  I2CDevice.op s e (OpKind.read len) buf

/-- Modelled from the spec: `write_then_read(buffer, wlen, rlen)` on a
virtual endpoint. -/
def I2CDevice.write_then_read (s : SysState) (e : Nat) (buf : Buffer)
    (wlen rlen : Nat) : OpResult × SysState :=
  I2CDevice.op s e (OpKind.writeRead wlen rlen) buf

/-- Modelled from the spec: the single completion callback the mux registers
with the physical master (section 4.2).  Fires only while a request is at the
hardware; looks up the endpoint recorded in the occupied slot, clears the
slot, forwards `(buffer, status)` to that endpoint (recorded in the
`deliveries` log and clearing that endpoint's outstanding flag), then pops
and dispatches the oldest queued request if the queue is non-empty. -/
def physical_master_completion (s : SysState) (st : Status) : SysState :=
  match s.hwBusy with
  | none => s
  | some _ =>
    let s1 : SysState :=
      { s with hwBusy := none, hwLog := s.hwLog ++ [HwEvent.completed st] }
    match s1.slot with
    | none => s1
    | some e =>
      let s2 : SysState :=
        { s1 with slot := none,
                  endpoints := setOutstanding s1.endpoints e false,
                  deliveries := s1.deliveries ++ [(e, st)] }
      match s2.queue with
      | [] => s2
      | r2 :: rest => dispatch { s2 with queue := rest } r2

/-- An externally visible event of the runtime model: a driver calls an
operation on endpoint `e` with a fresh buffer of capacity `cap`, or the
hardware completion fires with status `st`. -/
inductive Event
  | call (e : Nat) (k : OpKind) (cap : Nat)
  | complete (st : Status)
deriving Repr, DecidableEq

/-- One step of the runtime model. -/
def step (s : SysState) : Event → SysState
  | Event.call e k cap => (I2CDevice.op s e k { capacity := cap }).2
  | Event.complete st => physical_master_completion s st

/-- Run a sequence of events. -/
def run (s : SysState) (evs : List Event) : SysState := evs.foldl step s

/-- Modelled from the spec: the initial state — bus idle, no slot occupied,
empty queue, empty logs; the endpoint registry is fixed at construction
(section 4.2, initial state `Idle`). -/
def initState (regs : Nat → Option Endpoint) : SysState :=
  { endpoints := regs, slot := none, queue := [], hwBusy := none,
    hwLog := [], deliveries := [] }

/-- A state is reachable if some event sequence from some initial registry
produces it. -/
def Reachable (s : SysState) : Prop :=
  ∃ regs evs, run (initState regs) evs = s

/-- Well-formedness checker for the physical-master event log, threading the
master's busy flag: an operation may only be issued while the master is idle,
and a completion may only fire while it is busy.  Returns the final busy flag
when the log is well-formed, `none` otherwise. -/
def logRun : List HwEvent → Bool → Option Bool
  | [], b => some b
  | HwEvent.issued _ :: rest, b => if b then none else logRun rest true
  | HwEvent.completed _ :: rest, b => if b then logRun rest false else none

/-- The mux's core invariant: the in-flight slot mirrors the physical
master's busy request (occupied by exactly the endpoint of the in-flight
request), and the hardware log is well-formed with final busy flag equal to
the master's current busy state. -/
def MuxInv (s : SysState) : Prop :=
  s.slot = s.hwBusy.map Request.ep ∧
  logRun s.hwLog false = some s.hwBusy.isSome

theorem logRun_append (l1 l2 : List HwEvent) (b : Bool) :
    logRun (l1 ++ l2) b = (logRun l1 b).bind (fun b2 => logRun l2 b2) := by
  induction l1 generalizing b with
  | nil => simp [logRun]
  | cons e rest ih =>
    cases e with
    | issued r =>
      cases b with
      | false => simpa [logRun] using ih true
      | true => simp [logRun]
    | completed st =>
      cases b with
      | false => simp [logRun]
      | true => simpa [logRun] using ih false

theorem muxInv_init (regs : Nat → Option Endpoint) : MuxInv (initState regs) := by
  constructor <;> rfl

theorem muxInv_step (s : SysState) (ev : Event) (h : MuxInv s) :
    MuxInv (step s ev) := by
  obtain ⟨h1, h2⟩ := h
  cases ev with
  | call e k cap =>
    show MuxInv (I2CDevice.op s e k { capacity := cap }).2
    unfold I2CDevice.op
    cases he : s.endpoints e with
    | none => exact ⟨h1, h2⟩
    | some ep =>
      by_cases hlen : opLenOk k cap = false
      · simp only [hlen]
        exact ⟨h1, h2⟩
      · by_cases ho : ep.outstanding
        · simp only [hlen, ho, if_true, if_false]
          exact ⟨h1, h2⟩
        · simp only [hlen, ho, if_false]
          unfold enqueue
          cases hs : s.slot with
          | none =>
            have hbusy : s.hwBusy = none := by
              cases hb : s.hwBusy with
              | none => rfl
              | some r => rw [hb] at h1; rw [hs] at h1; simp at h1
            constructor
            · simp [dispatch]
            · simp [dispatch, logRun_append, h2, hbusy, logRun]
          | some x =>
            rw [hs] at h1
            constructor
            · simpa using h1
            · simpa using h2
  | complete st =>
    show MuxInv (physical_master_completion s st)
    unfold physical_master_completion
    cases hb : s.hwBusy with
    | none => exact ⟨h1, h2⟩
    | some r =>
      have hs : s.slot = some r.ep := by rw [h1, hb]; rfl
      rw [hb] at h2
      simp only [hs]
      cases hq : s.queue with
      | nil =>
        constructor
        · rfl
        · simp [logRun_append, h2, logRun]
      | cons r2 rest =>
        constructor
        · simp [dispatch]
        · simp [dispatch, logRun_append, h2, logRun]

theorem muxInv_run (s : SysState) (evs : List Event) (h : MuxInv s) :
    MuxInv (run s evs) := by
  induction evs generalizing s with
  | nil => exact h
  | cons ev rest ih => exact ih (step s ev) (muxInv_step s ev h)

theorem reachable_muxInv (s : SysState) (h : Reachable s) : MuxInv s := by
  obtain ⟨regs, evs, hrun⟩ := h
  rw [← hrun]
  exact muxInv_run (initState regs) evs (muxInv_init regs)

/-- C1: at most one request is in flight on the physical master in every
reachable state: the in-flight slot is occupied exactly when the physical
master is busy (and holds the in-flight request's endpoint), and the
physical-master event log is well-formed — the master never receives a
second operation before the previous operation's completion fired
(`logRun` threads the busy flag and rejects any issue-while-busy). -/
theorem mux_at_most_one_in_flight (regs : Nat → Option Endpoint)
    (evs : List Event) :
    ((run (initState regs) evs).slot.isSome
        = (run (initState regs) evs).hwBusy.isSome) ∧
    (run (initState regs) evs).slot
        = (run (initState regs) evs).hwBusy.map Request.ep ∧
    logRun (run (initState regs) evs).hwLog false
        = some (run (initState regs) evs).hwBusy.isSome := by
  have h := muxInv_run (initState regs) evs (muxInv_init regs)
  obtain ⟨h1, h2⟩ := h
  refine ⟨?_, h1, h2⟩
  rw [h1]
  cases (run (initState regs) evs).hwBusy <;> rfl

/-- C3: no orphaned completion — in every reachable state in which the
physical master is busy with request `r`, the mux's completion callback
forwards the completion to exactly one endpoint, namely the endpoint
recorded in the occupied slot, which is the endpoint whose request `r`
produced the completion: exactly one delivery `(r.ep, st)` is appended. -/
theorem no_orphaned_completion (s : SysState) (r : Request) (st : Status)
    (hs : Reachable s) (hb : s.hwBusy = some r) :
    s.slot = some r.ep ∧
    (physical_master_completion s st).deliveries
      = s.deliveries ++ [(r.ep, st)] := by
  have hinv := reachable_muxInv s hs
  have hslot : s.slot = some r.ep := by rw [hinv.1, hb]; rfl
  refine ⟨hslot, ?_⟩
  cases hq : s.queue <;>
    simp [physical_master_completion, hb, hslot, hq, dispatch]

/-- C6: idle liveness — in every reachable state in which the physical
master is busy and the pending queue is non-empty, the completion handler
pops the oldest queued request and dispatches it to the physical master
before returning: afterwards the master is busy with that request, the slot
records its endpoint, the queue has shrunk by its head, and the hardware log
shows the completion immediately followed by the new issue. -/
theorem idle_liveness (s : SysState) (r r2 : Request) (rest : List Request)
    (st : Status) (hs : Reachable s) (hb : s.hwBusy = some r)
    (hq : s.queue = r2 :: rest) :
    (physical_master_completion s st).hwBusy = some r2 ∧
    (physical_master_completion s st).slot = some r2.ep ∧
    (physical_master_completion s st).queue = rest ∧
    (physical_master_completion s st).hwLog
      = s.hwLog ++ [HwEvent.completed st, HwEvent.issued r2] := by
  have hinv := reachable_muxInv s hs
  have hslot : s.slot = some r.ep := by rw [hinv.1, hb]; rfl
  simp [physical_master_completion, hb, hslot, hq, dispatch]

/-- C4: busy rejection — an endpoint that already has an outstanding request
and issues another (length-valid) operation receives `Busy` synchronously,
the operation's buffer is returned synchronously in the error, and the system
state is unchanged: in particular the physical master receives nothing. -/
theorem busy_rejection (s : SysState) (e : Nat) (ep : Endpoint) (k : OpKind)
    (buf : Buffer) (he : s.endpoints e = some ep)
    (ho : ep.outstanding = true) (hlen : opLenOk k buf.capacity = true) :
    I2CDevice.op s e k buf = (OpResult.err ErrCode.busy buf, s) ∧
    (I2CDevice.op s e k buf).2.hwLog = s.hwLog := by
  have heq : I2CDevice.op s e k buf = (OpResult.err ErrCode.busy buf, s) := by
    simp [I2CDevice.op, he, ho, hlen]
  exact ⟨heq, by rw [heq]⟩

/-- C5: length guard — an operation whose requested byte count exceeds the
buffer's capacity fails synchronously with `InvalidLength`, the buffer is
returned synchronously in the error, and the system state is unchanged: the
physical master is never invoked for the operation. -/
theorem length_guard (s : SysState) (e : Nat) (ep : Endpoint) (k : OpKind)
    (buf : Buffer) (he : s.endpoints e = some ep)
    (hlen : opLenOk k buf.capacity = false) :
    I2CDevice.op s e k buf = (OpResult.err ErrCode.invalidLength buf, s) ∧
    (I2CDevice.op s e k buf).2.hwLog = s.hwLog := by
  have heq : I2CDevice.op s e k buf
      = (OpResult.err ErrCode.invalidLength buf, s) := by
    simp [I2CDevice.op, he, hlen]
  exact ⟨heq, by rw [heq]⟩

/-- A two-endpoint registry used to exercise the runtime model on concrete
inputs: endpoint 0 at address 0x5C, endpoint 1 at address 0x1E. -/
def regsW : Nat → Option Endpoint := fun n =>
  if n = 0 then some { address := 92, client := some 0, outstanding := false }
  else if n = 1 then some { address := 30, client := some 1, outstanding := false }
  else none

/-- Concrete request: endpoint 0 writes 2 bytes from an 8-byte buffer. -/
def reqA : Request := { ep := 0, kind := OpKind.write 2, buf := { capacity := 8 } }

/-- Concrete request: endpoint 1 reads 4 bytes into an 8-byte buffer. -/
def reqB : Request := { ep := 1, kind := OpKind.read 4, buf := { capacity := 8 } }

/-- Concrete reachable state with one request in flight and an empty queue. -/
def sBusy : SysState := run (initState regsW) [Event.call 0 (OpKind.write 2) 8]

/-- Concrete reachable state with one request in flight and one queued. -/
def sQueued : SysState :=
  run (initState regsW)
    [Event.call 0 (OpKind.write 2) 8, Event.call 1 (OpKind.read 4) 8]

theorem no_orphaned_completion_witness :
    Reachable sBusy ∧ sBusy.hwBusy = some reqA ∧
    (physical_master_completion sBusy Status.ok).deliveries
      = sBusy.deliveries ++ [(reqA.ep, Status.ok)] :=
  ⟨⟨regsW, [Event.call 0 (OpKind.write 2) 8], rfl⟩, by decide,
    (no_orphaned_completion sBusy reqA Status.ok
      ⟨regsW, [Event.call 0 (OpKind.write 2) 8], rfl⟩ (by decide)).2⟩

theorem idle_liveness_witness :
    Reachable sQueued ∧ sQueued.hwBusy = some reqA ∧
    sQueued.queue = [reqB] ∧
    (physical_master_completion sQueued Status.ok).hwBusy = some reqB ∧
    (physical_master_completion sQueued Status.ok).slot = some reqB.ep :=
  ⟨⟨regsW, [Event.call 0 (OpKind.write 2) 8, Event.call 1 (OpKind.read 4) 8],
      rfl⟩,
    by decide, by decide,
    (idle_liveness sQueued reqA reqB [] Status.ok
      ⟨regsW, [Event.call 0 (OpKind.write 2) 8, Event.call 1 (OpKind.read 4) 8],
        rfl⟩
      (by decide) (by decide)).1,
    (idle_liveness sQueued reqA reqB [] Status.ok
      ⟨regsW, [Event.call 0 (OpKind.write 2) 8, Event.call 1 (OpKind.read 4) 8],
        rfl⟩
      (by decide) (by decide)).2.1⟩

theorem busy_rejection_witness :
    sBusy.endpoints 0
      = some { address := 92, client := some 0, outstanding := true } ∧
    opLenOk (OpKind.read 1) 4 = true ∧
    I2CDevice.op sBusy 0 (OpKind.read 1) { capacity := 4 }
      = (OpResult.err ErrCode.busy { capacity := 4 }, sBusy) :=
  ⟨by decide, by decide,
    (busy_rejection sBusy 0
      { address := 92, client := some 0, outstanding := true }
      (OpKind.read 1) { capacity := 4 } (by decide) (by decide) (by decide)).1⟩

theorem length_guard_witness :
    (initState regsW).endpoints 0
      = some { address := 92, client := some 0, outstanding := false } ∧
    opLenOk (OpKind.write 9) 8 = false ∧
    I2CDevice.op (initState regsW) 0 (OpKind.write 9) { capacity := 8 }
      = (OpResult.err ErrCode.invalidLength { capacity := 8 },
          initState regsW) :=
  ⟨by decide, by decide,
    (length_guard (initState regsW) 0
      { address := 92, client := some 0, outstanding := false }
      (OpKind.write 9) { capacity := 8 } (by decide) (by decide)).1⟩

/-- C2: FIFO fairness — from any reachable state in which the bus is busy
serving endpoint `d` with an empty pending queue, if three distinct
endpoints `a`, `b`, `c` enqueue valid operations in that order (all while
the bus is busy) and no further requests arrive, then the subsequent
completions are delivered to `d`, then `a`, then `b`, then `c`, in that
order, and the physical master receives the queued operations in exactly
the order `a`, `b`, `c`. -/
theorem fifo_fairness (s : SysState) (d a b c : Nat)
    (epa epb epc : Endpoint) (ka kb kc : OpKind) (ca cb cc : Nat)
    (st1 st2 st3 st4 : Status)
    (hs : Reachable s) (hslot : s.slot = some d) (hq : s.queue = [])
    (hba : ¬ b = a) (hca : ¬ c = a) (hcb : ¬ c = b)
    (ha : s.endpoints a = some epa) (hoa : epa.outstanding = false)
    (hb : s.endpoints b = some epb) (hob : epb.outstanding = false)
    (hc : s.endpoints c = some epc) (hoc : epc.outstanding = false)
    (hla : opLenOk ka ca = true) (hlb : opLenOk kb cb = true)
    (hlc : opLenOk kc cc = true) :
    (run s [Event.call a ka ca, Event.call b kb cb, Event.call c kc cc,
            Event.complete st1, Event.complete st2, Event.complete st3,
            Event.complete st4]).deliveries
      = s.deliveries ++ [(d, st1), (a, st2), (b, st3), (c, st4)] ∧
    (run s [Event.call a ka ca, Event.call b kb cb, Event.call c kc cc,
            Event.complete st1, Event.complete st2, Event.complete st3,
            Event.complete st4]).hwLog
      = s.hwLog ++
          [HwEvent.completed st1,
           HwEvent.issued { ep := a, kind := ka, buf := { capacity := ca } },
           HwEvent.completed st2,
           HwEvent.issued { ep := b, kind := kb, buf := { capacity := cb } },
           HwEvent.completed st3,
           HwEvent.issued { ep := c, kind := kc, buf := { capacity := cc } },
           HwEvent.completed st4] := by
  have hinv := reachable_muxInv s hs
  have hbr : ∃ r : Request, s.hwBusy = some r := by
    cases hbz : s.hwBusy with
    | none =>
      rw [hinv.1, hbz] at hslot
      simp at hslot
    | some r => exact ⟨r, rfl⟩
  obtain ⟨r, hbr⟩ := hbr
  constructor <;>
    simp [run, step, I2CDevice.op, enqueue, dispatch,
      physical_master_completion, setOutstanding, hq, hslot, hbr,
      ha, hb, hc, hoa, hob, hoc, hla, hlb, hlc, hba, hca, hcb]

/-- A four-endpoint registry for the FIFO-fairness scenario. -/
def regsW4 : Nat → Option Endpoint := fun n =>
  if n = 0 then some { address := 92, client := some 0, outstanding := false }
  else if n = 1 then some { address := 30, client := some 1, outstanding := false }
  else if n = 2 then some { address := 56, client := some 2, outstanding := false }
  else if n = 3 then some { address := 72, client := some 3, outstanding := false }
  else none

/-- Concrete reachable state in which endpoint 3 is in flight, queue empty. -/
def sBusy4 : SysState := run (initState regsW4) [Event.call 3 (OpKind.write 1) 2]

theorem fifo_fairness_witness :
    Reachable sBusy4 ∧ sBusy4.slot = some 3 ∧ sBusy4.queue = [] ∧
    (run sBusy4
        [Event.call 0 (OpKind.write 2) 8, Event.call 1 (OpKind.read 4) 8,
         Event.call 2 (OpKind.writeRead 1 2) 8, Event.complete Status.ok,
         Event.complete Status.ok, Event.complete Status.nack,
         Event.complete Status.ok]).deliveries
      = sBusy4.deliveries
          ++ [(3, Status.ok), (0, Status.ok), (1, Status.nack), (2, Status.ok)] :=
  ⟨⟨regsW4, [Event.call 3 (OpKind.write 1) 2], rfl⟩, by decide, by decide,
    (fifo_fairness sBusy4 3 0 1 2
      { address := 92, client := some 0, outstanding := false }
      { address := 30, client := some 1, outstanding := false }
      { address := 56, client := some 2, outstanding := false }
      (OpKind.write 2) (OpKind.read 4) (OpKind.writeRead 1 2) 8 8 8
      Status.ok Status.ok Status.nack Status.ok
      ⟨regsW4, [Event.call 3 (OpKind.write 1) 2], rfl⟩
      (by decide) (by decide) (by decide) (by decide) (by decide) (by decide)
      (by decide) (by decide) (by decide) (by decide) (by decide) (by decide)
      (by decide) (by decide)).1⟩

/-!
## Construction-time model

Embedding of `boards/components/src/i2c.rs`: the two component builders.
Heap references (`&'static` produced by `static_init!`) are modelled as
indices into per-type allocation lists; every call a builder makes on a
physical master capability is recorded in a log, and each master's single
client-registration slot is an explicit map.
-/

/-- Modelled from the spec: the `MuxI2C` object as constructed — it owns the
reference to its physical master capability, starts with the in-flight slot
unoccupied and an empty pending queue (section 4.2, initial state `Idle`).
The engine `capsules::virtual_i2c` is not part of the excerpt. -/
structure MuxI2C where
  i2c : Nat
  inflight : Option Nat
  queue : List Request
deriving Repr, DecidableEq

/-- Modelled from the spec: `MuxI2C::new(i2c)` — a fresh mux over the given
physical master capability. -/
def MuxI2C.new (i2c : Nat) : MuxI2C :=
  { i2c := i2c, inflight := none, queue := [] }

/-- Modelled from the spec: the `I2CDevice` object as constructed — a mux
reference, a bus address, and an optional per-endpoint completion client
(section 3, "Virtual Endpoint").  `capsules::virtual_i2c` is not part of
the excerpt. -/
structure I2CDevice where
  mux : Nat
  address : Nat
  client : Option Nat
deriving Repr, DecidableEq

/-- Modelled from the spec: `I2CDevice::new(mux, address)` — bound to the
given mux and address; no completion client is registered yet (client
registration happens later, via `set_client`). -/
def I2CDevice.new (mux : Nat) (address : Nat) : I2CDevice :=
  { mux := mux, address := address, client := none }

/-- A call made on a physical master capability. -/
inductive MasterCall
  | set_master_client (client : Nat)
  | write (len : Nat)
  | read (len : Nat)
  | write_then_read (wlen rlen : Nat)
deriving Repr, DecidableEq

/-- Whether a master call starts a bus transaction (data phase), as opposed
to the pure client registration. -/
def isDataOp : MasterCall → Bool
  | MasterCall.set_master_client _ => false
  | MasterCall.write _ => true
  | MasterCall.read _ => true
  | MasterCall.write_then_read _ _ => true

/-- The construction-time world: allocation lists for `static_init!`-created
objects (a reference is an index), each master's registered completion
client, and the log of every call made on a master `(master, call)`. -/
structure World where
  muxHeap : List MuxI2C
  devHeap : List I2CDevice
  masterClient : Nat → Option Nat
  masterLog : List (Nat × MasterCall)

/-- The empty construction-time world. -/
def emptyWorld : World :=
  { muxHeap := [], devHeap := [], masterClient := fun _ => none,
    masterLog := [] }

/-- `I2CMuxComponent` (boards/components/src/i2c.rs): holds the physical
master capability reference handed to `new`. -/
structure I2CMuxComponent where
  i2c : Nat
deriving Repr, DecidableEq

/-- `I2CMuxComponent::new(i2c)` (boards/components/src/i2c.rs). -/
def I2CMuxComponent.new (i2c : Nat) : I2CMuxComponent := { i2c := i2c }

/-- `I2CMuxComponent::finalize` (boards/components/src/i2c.rs):
`static_init!` a `MuxI2C::new(self.i2c)`, call
`self.i2c.set_master_client(mux_i2c)`, and return `mux_i2c`. -/
def I2CMuxComponent.finalize (self : I2CMuxComponent) (w : World) :
    Nat × World :=
  let mux_i2c := MuxI2C.new self.i2c
  let muxRef := w.muxHeap.length
  let w1 : World := { w with muxHeap := w.muxHeap ++ [mux_i2c] }
  let w2 : World :=
    { w1 with
        masterClient :=
          fun m => if m = self.i2c then some muxRef else w1.masterClient m,
        masterLog :=
          w1.masterLog ++ [(self.i2c, MasterCall.set_master_client muxRef)] }
  (muxRef, w2)

/-- `I2CComponent` (boards/components/src/i2c.rs): holds the mux reference
and the `u8` device address handed to `new`. -/
structure I2CComponent where
  i2c_mux : Nat
  address : Nat
deriving Repr, DecidableEq

/-- `I2CComponent::new(mux, address)` (boards/components/src/i2c.rs): stores
both arguments; no validation of any kind. -/
def I2CComponent.new (mux : Nat) (address : Nat) : I2CComponent :=
  { i2c_mux := mux, address := address }

/-- `I2CComponent::finalize` (boards/components/src/i2c.rs): `static_init!`
an `I2CDevice::new(self.i2c_mux, self.address)` and return it; nothing else
happens — in particular no call on any master and no client registration. -/
def I2CComponent.finalize (self : I2CComponent) (w : World) : Nat × World :=
  let i2c_device := I2CDevice.new self.i2c_mux self.address
  let devRef := w.devHeap.length
  (devRef, { w with devHeap := w.devHeap ++ [i2c_device] })

/-- C7: `I2CMuxComponent::finalize` allocates exactly one `MuxI2C`, built
over the physical master capability given to `new`, returns the reference
to it, and registers that same object as the master's completion client
before returning. -/
theorem mux_component_finalize_binds (i2c : Nat) (w : World) :
    ((I2CMuxComponent.new i2c).finalize w).2.muxHeap
      = w.muxHeap ++ [MuxI2C.new i2c] ∧
    ((I2CMuxComponent.new i2c).finalize w).1 = w.muxHeap.length ∧
    (MuxI2C.new i2c).i2c = i2c ∧
    ((I2CMuxComponent.new i2c).finalize w).2.muxHeap.get?
        ((I2CMuxComponent.new i2c).finalize w).1 = some (MuxI2C.new i2c) ∧
    ((I2CMuxComponent.new i2c).finalize w).2.masterClient i2c
      = some ((I2CMuxComponent.new i2c).finalize w).1 := by
  refine ⟨rfl, rfl, rfl, ?_, by simp [I2CMuxComponent.new,
    I2CMuxComponent.finalize]⟩
  simp [I2CMuxComponent.new, I2CMuxComponent.finalize,
    List.getElem?_concat_length]

/-- C9 (frame): the only interaction `I2CMuxComponent::finalize` has with
any physical master is the single `set_master_client` call on the master
given to `new` — the master-call log grows by exactly that one entry, no
data-phase operation (`write`/`read`/`write_then_read`) is issued, the
client slots of all other masters are untouched, and the device heap is
unchanged. -/
theorem mux_component_finalize_frame (i2c : Nat) (w : World) :
    ((I2CMuxComponent.new i2c).finalize w).2.masterLog
      = w.masterLog
          ++ [(i2c, MasterCall.set_master_client w.muxHeap.length)] ∧
    (((I2CMuxComponent.new i2c).finalize w).2.masterLog.filter
        (fun p => isDataOp p.2))
      = w.masterLog.filter (fun p => isDataOp p.2) ∧
    ((I2CMuxComponent.new i2c).finalize w).2.masterClient
      = (fun m => if m = i2c then some w.muxHeap.length
                  else w.masterClient m) ∧
    ((I2CMuxComponent.new i2c).finalize w).2.devHeap = w.devHeap := by
  refine ⟨rfl, ?_, rfl, rfl⟩
  simp [I2CMuxComponent.new, I2CMuxComponent.finalize, List.filter_append,
    isDataOp]

/-- C10: `I2CComponent::finalize` allocates exactly one `I2CDevice`, built
with precisely the mux reference and address stored by `new`, unchanged and
unvalidated; it makes no master call and registers no client, so the fresh
endpoint has no completion client. -/
theorem i2c_component_finalize_passthrough (mux a : Nat) (w : World) :
    ((I2CComponent.new mux a).finalize w).2.devHeap
      = w.devHeap ++ [I2CDevice.new mux a] ∧
    ((I2CComponent.new mux a).finalize w).1 = w.devHeap.length ∧
    (I2CDevice.new mux a).mux = mux ∧
    (I2CDevice.new mux a).address = a ∧
    (I2CDevice.new mux a).client = none ∧
    ((I2CComponent.new mux a).finalize w).2.masterLog = w.masterLog ∧
    ((I2CComponent.new mux a).finalize w).2.masterClient = w.masterClient ∧
    ((I2CComponent.new mux a).finalize w).2.muxHeap = w.muxHeap := by
  exact ⟨rfl, rfl, rfl, rfl, rfl, rfl, rfl, rfl⟩

/-- C8 fails on the code: `I2CComponent::new` takes any `u8` address with
no validation, and `finalize` passes it through to `I2CDevice::new`
unchanged — at the concrete accepted input 200 (a valid `u8`) the
constructed device's address does not fit in 7 bits. -/
theorem seven_bit_address_cex :
    200 < 256 ∧
    ((I2CComponent.new 0 200).finalize emptyWorld).2.devHeap.get?
        ((I2CComponent.new 0 200).finalize emptyWorld).1
      = some (I2CDevice.new 0 200) ∧
    ¬ (I2CDevice.new 0 200).address < 128 := by
  exact ⟨by norm_num, rfl, by decide⟩

/-- C8 amended: the endpoint builder binds exactly the `u8` address it was
given — any value below 256 is accepted and passed through unchanged to
`I2CDevice::new`; the builder enforces no 7-bit restriction (7-bitness of
I2C addresses is a convention of the callers, not checked here). -/
theorem seven_bit_address_amended (mux a : Nat) (w : World) (h : a < 256) :
    ((I2CComponent.new mux a).finalize w).2.devHeap.get?
        ((I2CComponent.new mux a).finalize w).1
      = some (I2CDevice.new mux a) ∧
    (I2CDevice.new mux a).address = a ∧
    (I2CDevice.new mux a).address < 256 := by
  refine ⟨?_, rfl, h⟩
  simp [I2CComponent.new, I2CComponent.finalize, List.getElem?_concat_length]

theorem seven_bit_address_amended_witness :
    92 < 256 ∧
    ((I2CComponent.new 0 92).finalize emptyWorld).2.devHeap.get?
        ((I2CComponent.new 0 92).finalize emptyWorld).1
      = some (I2CDevice.new 0 92) ∧
    (I2CDevice.new 0 92).address = 92 :=
  ⟨by norm_num, (seven_bit_address_amended 0 92 emptyWorld (by norm_num)).1,
    (seven_bit_address_amended 0 92 emptyWorld (by norm_num)).2.1⟩
